import Mathlib

/-!
Verification of the synchronization engine of `workshop.py` (steam_workshop_downloader).

Shallow embedding conventions:
* The catalog HTTP API (`GetCollectionDetails`, `GetPublishedFileDetails`) is an
  oracle function; `none` models an `HTTPError`/`URLError` raised by `urlopen`.
* Python dicts (`old_plugins`, `succeed`, the persisted `saved_data`) are modelled
  as insertion-ordered association lists with update-or-append assignment,
  matching CPython dict semantics.
* The unbounded `while`/recursion constructs are given explicit fuel; exhausting
  the fuel (`none`) models non-termination of the source.
* Thread dispatch in `download_plugins_concurrently` is modelled with the
  sequential schedule (each worker runs to completion at its `start()` point);
  the shared counters/lists become explicit state.
-/

set_option autoImplicit false

namespace Workshop

/-! ## Data model (§3 of the spec, `workshop.py` lines 29-47) -/

/-- A child entry of a collection-details record: `{'publishedfileid', 'filetype'}`. -/
structure Child where
  publishedfileid : String
  filetype : Nat
deriving DecidableEq, Repr

/-- One record of `json_response['response']['collectiondetails']`.
`children = none` models a record without a `'children'` key. -/
structure CollectionDetail where
  publishedfileid : String
  children : Option (List Child)
deriving DecidableEq, Repr

/-- The batched `GetCollectionDetails` call (`urlopen` at line 135) as an oracle:
input the queried id list, output the parsed `collectiondetails` array, or
`none` for an `HTTPError`/`URLError`. -/
def Catalog : Type := List String → Option (List CollectionDetail)

/-- A published-file-details record, as consumed by the download phase:
`{'publishedfileid', 'title', 'time_updated', 'file_url'}`.
`file_url = none` models a record without a `'file_url'` key. -/
structure Plugin where
  publishedfileid : String
  title : String
  time_updated : Nat
  file_url : Option String
deriving DecidableEq, Repr

/-- The metadata kept per plugin in the persisted state:
`{k: plugin[k] for k in ('title', 'time_updated')}` (lines 57 and 65). -/
structure PluginMeta where
  title : String
  time_updated : Nat
deriving DecidableEq, Repr

def Plugin.meta (p : Plugin) : PluginMeta :=
  ⟨p.title, p.time_updated⟩

/-- A Python dict keyed by publishedfileid, as an insertion-ordered entry list. -/
abbrev Smap : Type := List (String × PluginMeta)

/-- Dict assignment `d[k] = v`: overwrite in place if the key exists,
append otherwise (CPython insertion-order semantics). -/
def dinsert {β : Type} (m : List (String × β)) (k : String) (v : β) :
    List (String × β) :=
  if m.any (fun e => e.1 == k) then
    m.map (fun e => if e.1 == k then (k, v) else e)
  else
    m ++ [(k, v)]

/-- Dict method `m.update(s)`: assign every entry of `s` into `m` in order. -/
def dupdate {β : Type} (m s : List (String × β)) : List (String × β) :=
  s.foldl (fun acc e => dinsert acc e.1 e.2) m

/-! ## Collection resolution (`get_plugins_id_from_collections_list`, lines 124-158) -/

/-- The inner `for item in collection['children']` loop (lines 147-153):
split the children into leaf plugin ids (`filetype == 0`) and sub-collection
ids (`filetype == 2`); any other filetype is logged and skipped. -/
def processChildren : List Child → List String × List String
  | [] => ([], [])
  | c :: rest =>
    let (pl, sub) := processChildren rest
    if c.filetype = 0 then (c.publishedfileid :: pl, sub)
    else if c.filetype = 2 then (pl, c.publishedfileid :: sub)
    else (pl, sub)

/-- The outer `for collection in json_response[...]['collectiondetails']` loop
(lines 144-153): a record with a `children` key contributes its id to
`valid_collections` and its children to the two accumulators; a record without
`children` contributes nothing.  Returns
`(plugins_id_list, sub_collection, valid_collections)`. -/
def processResponse : List CollectionDetail → List String × List String × List String
  | [] => ([], [], [])
  | col :: rest =>
    let (pl, sub, valid) := processResponse rest
    match col.children with
    | none => (pl, sub, valid)
    | some ch =>
      let (cpl, csub) := processChildren ch
      (cpl ++ pl, csub ++ sub, col.publishedfileid :: valid)

/-- Result of one `get_plugins_id_from_collections_list` call: the triple
`(error, plugins_id_list, valid_collections)` of line 158, with `error`
reduced to a flag. -/
structure ResolveOut where
  error : Bool
  plugins_id_list : List String
  valid_collections : List String
deriving DecidableEq, Repr

/-- `get_plugins_id_from_collections_list` (lines 124-158) over a catalog oracle.
The recursion on `sub_collection` (line 155) has no structural bound, so it is
given explicit fuel; the outer `none` models non-termination (fuel exhausted),
while `ResolveOut.error = true` models a caught `HTTPError`/`URLError`.
On a sub-call error the current level still returns its own accumulated
`plugins_id_list` and `valid_collections` together with the error (lines
155-158); the sub-call's `valid_collections` is discarded (`_` at line 155). -/
def get_plugins_id_from_collections_list (cat : Catalog) :
    Nat → List String → Option ResolveOut
  | 0, _ => none
  | fuel + 1, collections_id_list =>
    match cat collections_id_list with
    | none => some ⟨true, [], []⟩
    | some resp =>
      let (pl, sub, valid) := processResponse resp
      if sub = [] then some ⟨false, pl, valid⟩
      else
        match get_plugins_id_from_collections_list cat fuel sub with
        | none => none
        | some subOut =>
          if subOut.error then some ⟨true, pl, valid⟩
          else some ⟨false, pl ++ subOut.plugins_id_list, valid⟩

/-- Spec-side definition (for the refinement comparison of the resolver's
output): the SET of distinct leaf artifact ids referenced across all nesting
levels of the resolution, following the spec's words "N total distinct leaf
artifacts referenced any number of times across any nesting depth". -/
def specDistinctLeafIds (cat : Catalog) : Nat → List String → Finset String
  | 0, _ => ∅
  | fuel + 1, collections_id_list =>
    match cat collections_id_list with
    | none => ∅
    | some resp =>
      let (pl, sub, _) := processResponse resp
      if sub = [] then pl.toFinset
      else pl.toFinset ∪ specDistinctLeafIds cat fuel sub

/-! ## Concurrent download (`download_plugins_concurrently`, lines 43-89) -/

/-- The network world for one batch: whether `urlretrieve` on a given plugin
record succeeds (`true`) or raises `HTTPError` (`false`). -/
def Net : Type := Plugin → Bool

/-- The shared state of one `download_plugins_concurrently` call: the
`error` counter, `fail` list, `succeed` dict, and `downloads` counter of lines
44-47, plus `calls`, the number of `urlretrieve` invocations actually made
(instrumentation for "a network call happened"). -/
structure DlState where
  error : Nat
  fail : List Plugin
  succeed : Smap
  downloads : Nat
  calls : Nat
deriving DecidableEq, Repr

/-- The worker body `download_plugin` (lines 49-76) acting on the shared state:
* no `'file_url'` key: the whole body is skipped, the state is untouched;
* present in `old_plugins` with identical `time_updated`: recorded in
  `succeed` without any network call (lines 53-57);
* otherwise `urlretrieve` is attempted (one `call`): on success the plugin is
  recorded in `succeed` and `downloads` is incremented (lines 59-70); on
  `HTTPError`, `error` is incremented and the plugin appended to `fail`
  (lines 72-76). -/
def download_plugin (net : Net) (old_plugins : Smap) (st : DlState) (p : Plugin) :
    DlState :=
  match p.file_url with
  | none => st
  | some _ =>
    let upToDate : Bool :=
      match List.lookup p.publishedfileid old_plugins with
      | some old => old.time_updated == p.time_updated
      | none => false
    if upToDate then
      { st with succeed := dinsert st.succeed p.publishedfileid p.meta }
    else if net p then
      { st with succeed := dinsert st.succeed p.publishedfileid p.meta,
                downloads := st.downloads + 1,
                calls := st.calls + 1 }
    else
      { st with error := st.error + 1,
                fail := st.fail ++ [p],
                calls := st.calls + 1 }

/-- The dispatch loop of lines 78-87 under the sequential schedule (each
started worker runs to completion immediately): a plugin is skipped
(`continue`, line 81) whenever the `downloads` counter has reached a non-zero
global limit, otherwise its worker runs. -/
def dispatch (limit : Nat) (net : Net) (old_plugins : Smap) :
    List Plugin → DlState → DlState
  | [], st => st
  | p :: rest, st =>
    if limit ≤ st.downloads ∧ limit ≠ 0 then
      dispatch limit net old_plugins rest st
    else
      dispatch limit net old_plugins rest (download_plugin net old_plugins st p)

/-- `download_plugins_concurrently` (lines 43-89) under the sequential
schedule.  `limit` threads the module global `g_iLimitDownloads` (line 16,
`0` = unlimited); `output_dir` only contributes to the written file path and
is dropped.  The triple returned at line 89 is the final shared state. -/
def download_plugins_concurrently (limit : Nat) (net : Net)
    (plugins : List Plugin) (old_plugins : Smap) : DlState :=
  dispatch limit net old_plugins plugins ⟨0, [], [], 0, 0⟩

/-! ## Reconciliation (`plugins_to_remove`, lines 182-194, and `main`, lines 197-251) -/

/-- `plugins_to_remove` (lines 182-194): the persisted keys absent from the
freshly resolved id list, in key iteration order. -/
def plugins_to_remove (plugins_id_list : List String) (old_plugins : Smap) :
    List String :=
  (old_plugins.map Prod.fst).filter (fun k => !(plugins_id_list.contains k))

/-- The persisted `saved_data` record (`addons.lst`):
`plugins = none` models an absent `'plugins'` key (line 215). -/
structure SavedData where
  collections : List String
  plugins : Option Smap
deriving DecidableEq, Repr

/-- The batched `GetPublishedFileDetails` call (`get_plugins_info`,
lines 160-180) as an oracle: input the queried id list, output the parsed
`publishedfiledetails` array, or `none` for an `HTTPError`/`URLError`. -/
def InfoFetch : Type := List String → Option (List Plugin)

/-- Modelled from the spec: `deletePlugins` (and `print_deprecated_info`) are
called by `main` at lines 224-225 but are defined nowhere in the repository
source.  Per the spec (§4.4, PruningDeprecated: "remove local files and strip
them from persisted state"; §8: a deprecated id is "removed from
`PersistedState.plugins` before the next download pass"), this model strips
every deprecated id from both `saved_data['plugins']` and `old_plugins` (the
two references `main` passes in) and deletes each id's local `<id>.vpk` file,
returning the deleted file names. -/
def deletePlugins (deprecated : List String) (saved_plugins old_plugins : Smap) :
    Smap × Smap × List String :=
  (saved_plugins.filter (fun e => !(deprecated.contains e.1)),
   old_plugins.filter (fun e => !(deprecated.contains e.1)),
   deprecated.map (fun i => i ++ ".vpk"))

/-- Result of the reconciliation phase of `main` (lines 213-231): the mutated
`saved_data`, the surviving `old_plugins`, the id list handed to the final
`get_plugins_info` call (line 231), and the local files deleted by pruning. -/
structure ReconcileOut where
  saved : SavedData
  old_plugins : Smap
  download_ids : List String
  deleted_files : List String
deriving DecidableEq, Repr

/-- The reconciliation phase of `main` (lines 213-231), entered after a
successful resolution: store `valid_collections` (line 214); when a
`'plugins'` key exists, compute the deprecated ids (lines 217-218), and if
there are any and their `get_plugins_info` fetch succeeds, prune them via
`deletePlugins` (lines 219-225) — on a fetch error pruning is skipped and the
run continues (the error variable is overwritten at line 231); then merge the
surviving old keys into the download list and deduplicate (lines 226-227).
Finally reset `saved_data['plugins']` to an empty dict (line 230). -/
def reconcile (fetch : InfoFetch) (plugins_id_list : List String)
    (saved : SavedData) (valid_collections : List String) : ReconcileOut :=
  let saved1 : SavedData := { saved with collections := valid_collections }
  match saved1.plugins with
  | some old_plugins =>
    let deprecated := (plugins_to_remove plugins_id_list old_plugins).dedup
    let pruned :=
      if deprecated = [] then (old_plugins, old_plugins, ([] : List String))
      else
        match fetch deprecated with
        | some _ => deletePlugins deprecated old_plugins old_plugins
        | none => (old_plugins, old_plugins, [])
    let old1 := pruned.2.1
    let ids := (plugins_id_list ++ old1.map Prod.fst).dedup
    ⟨{ saved1 with plugins := some [] }, old1, ids, pruned.2.2⟩
  | none =>
    ⟨{ saved1 with plugins := some [] }, [], plugins_id_list, []⟩

/-- Result of the download `while` loop of `main` (lines 233-251): the final
`saved_data`, the successive contents written to the save file (one
`json.dump` per attempt, lines 238-239), the number of attempts executed, the
terminal state (`gave_up = true` iff line 249 prints the give-up warning), and
the per-attempt `succeed` dicts (trace instrumentation). -/
structure LoopOut where
  saved : SavedData
  writes : List SavedData
  attempts : Nat
  gave_up : Bool
  succeed_trace : List Smap
deriving DecidableEq, Repr

/-- The download `while` loop of `main` (lines 235-247) with explicit fuel
(`none` = fuel exhausted): while the pending `plugins_info` batch is nonempty
and fewer than 5 consecutive failing attempts have occurred, run one
`download_plugins_concurrently` attempt (with the attempt-indexed network
world `nets i`), merge its `succeed` dict into `saved_data['plugins']`
(line 237), dump the state to the save file (lines 238-239), and retry the
failed subset — incrementing the failure counter if the attempt had failures,
resetting it to 0 otherwise. -/
def mainLoop (nets : Nat → Net) (old_plugins : Smap) (limit : Nat) :
    Nat → Nat → List Plugin → Nat → SavedData → List SavedData → List Smap →
    Option LoopOut
  | 0, _, _, _, _, _, _ => none
  | fuel + 1, i, plugins_info, failures, saved, writes, straces =>
    if plugins_info ≠ [] ∧ failures < 5 then
      let st := download_plugins_concurrently limit (nets i) plugins_info old_plugins
      let saved1 : SavedData :=
        { saved with plugins := some (dupdate (saved.plugins.getD []) st.succeed) }
      if 0 < st.error then
        mainLoop nets old_plugins limit fuel (i + 1) st.fail (failures + 1)
          saved1 (writes ++ [saved1]) (straces ++ [st.succeed])
      else
        mainLoop nets old_plugins limit fuel (i + 1) st.fail 0
          saved1 (writes ++ [saved1]) (straces ++ [st.succeed])
    else
      some ⟨saved, writes, i, decide (failures ≠ 0), straces⟩

/-- Result of a whole `main` run after a successful resolution:
whether the download phase was reached (line 232's `error is None` check
passed), the save-file writes performed, the final in-memory state and the
terminal flag. -/
structure RunOut where
  reached_download : Bool
  writes : List SavedData
  saved : SavedData
  gave_up : Bool
deriving DecidableEq, Repr

/-- `main` from line 213 on (resolution already succeeded with
`plugins_id_list` and `valid_collections`): reconcile, fetch the download
batch via `get_plugins_info` (line 231) — on a fetch error the download phase
is skipped and nothing is ever written — then run the download loop
(fuel 7 always suffices, see `mainLoop_total`). -/
def run_main (fetch : InfoFetch) (nets : Nat → Net) (limit : Nat)
    (plugins_id_list valid_collections : List String) (saved : SavedData) :
    RunOut :=
  let r := reconcile fetch plugins_id_list saved valid_collections
  match fetch r.download_ids with
  | none => ⟨false, [], r.saved, false⟩
  | some plugins_info =>
    match mainLoop nets r.old_plugins limit 7 0 plugins_info 0 r.saved [] [] with
    | none => ⟨true, [], r.saved, false⟩
    | some out => ⟨true, out.writes, out.saved, out.gave_up⟩

/-! ## Request encoding (`const_data`, lines 36-39 and 129-133, 163-167) -/

/-- A request dict as passed to `urllib.parse.urlencode`: an insertion-ordered
key-value sequence.  The encoding is injective on it, so the payload is
modelled as the sequence itself. -/
abbrev ReqDict : Type := List (String × String)

/-- The module-level `const_data['collection']` template (lines 36-39),
shared by every `get_plugins_id_from_collections_list` call in the process. -/
def const_data_collection : ReqDict :=
  [("collectioncount", "0"), ("publishedfileids[0]", "0")]

/-- The module-level `const_data['file']` template (lines 36-39), shared by
every `get_plugins_info` call in the process. -/
def const_data_file : ReqDict :=
  [("itemcount", "0"), ("publishedfileids[0]", "0")]

/-- The request-building steps of `get_plugins_id_from_collections_list`
(lines 129-133) / `get_plugins_info` (lines 163-167): `data = const_data[...]`
aliases the shared template, so the assignments mutate it in place; the
(state, payload) pair is returned — both are the mutated template. -/
def buildRequest (countKey : String) (tmpl : ReqDict) (ids : List String) :
    ReqDict × ReqDict :=
  let d1 := dinsert tmpl countKey (toString ids.length)
  let d2 := ids.enum.foldl
    (fun d e => dinsert d ("publishedfileids[" ++ toString e.1 ++ "]") e.2) d1
  (d2, d2)

/-- One full collection-details invocation at the request/response level:
build the encoded payload from the shared template state and the id list,
then parse the given response (lines 143-153); the returned value is the
parse result, the new template state persists for the next call. -/
def invokeCollectionCall (tmpl : ReqDict) (ids : List String)
    (resp : List CollectionDetail) :
    ReqDict × ReqDict × (List String × List String × List String) :=
  let (tmpl1, payload) := buildRequest "collectioncount" tmpl ids
  (tmpl1, payload, processResponse resp)

/-! ## Concrete instances used in counterexamples and witnesses -/

/-- The attempt-indexed batches of the retry loop: batch 0 is the initial
`plugins_info`, batch `i+1` is the `fail` list of attempt `i`
(`error, plugins_info, succeed_temp = download_plugins_concurrently(...)`,
line 236). -/
def attemptBatch (nets : Nat → Net) (old_plugins : Smap) (limit : Nat)
    (plugins0 : List Plugin) : Nat → List Plugin
  | 0 => plugins0
  | i + 1 =>
    (download_plugins_concurrently limit (nets i)
      (attemptBatch nets old_plugins limit plugins0 i) old_plugins).fail

/-- A catalog in which collection `10` references leaf `1` and sub-collection
`20`, and collection `20` references the same leaf `1` again. -/
def catTwoRefs : Catalog := fun ids =>
  if ids = ["10"] then some [⟨"10", some [⟨"1", 0⟩, ⟨"20", 2⟩]⟩]
  else if ids = ["20"] then some [⟨"20", some [⟨"1", 0⟩]⟩]
  else some []

/-- A catalog whose details record for any collection lists that same
collection as its own filetype-2 child. -/
def cyclicCatalog : Catalog := fun ids =>
  some (ids.map (fun i => ⟨i, some [⟨i, 2⟩]⟩))

/-- A network world in which every `urlretrieve` succeeds. -/
def netAll : Net := fun _ => true

/-- Attempt-indexed network worlds in which every `urlretrieve` fails. -/
def netsNone : Nat → Net := fun _ _ => false

/-- A file-details oracle that always answers, returning a url-less record
per queried id. -/
def cFetch : InfoFetch := fun ids => some (ids.map fun i => ⟨i, "t", 0, none⟩)

/-- A downloadable plugin record with the given numeric id. -/
def mkPlugin (i : Nat) : Plugin := ⟨toString i, "t", 0, some "u"⟩

/-- A batch of three downloadable plugin records. -/
def plugins3 : List Plugin := [mkPlugin 1, mkPlugin 2, mkPlugin 3]

/-- A plugin record without a `'file_url'` key. -/
def urllessPlugin : Plugin := ⟨"7", "t", 0, none⟩

end Workshop

namespace Workshop

/-! ## Helper lemmas -/

theorem download_plugin_no_url (net : Net) (old : Smap) (st : DlState)
    (p : Plugin) (h : p.file_url = none) :
    download_plugin net old st p = st := by
  simp [download_plugin, h]

theorem dispatch_nil (limit : Nat) (net : Net) (old : Smap) (st : DlState) :
    dispatch limit net old [] st = st := rfl

theorem dispatch_cons (limit : Nat) (net : Net) (old : Smap) (p : Plugin)
    (rest : List Plugin) (st : DlState) :
    dispatch limit net old (p :: rest) st =
      if limit ≤ st.downloads ∧ limit ≠ 0 then dispatch limit net old rest st
      else dispatch limit net old rest (download_plugin net old st p) := rfl

theorem dispatch_filter_url (limit : Nat) (net : Net) (old : Smap) :
    ∀ (plugins : List Plugin) (st : DlState),
      dispatch limit net old plugins st =
        dispatch limit net old (plugins.filter (fun p => p.file_url.isSome)) st := by
  intro plugins
  induction plugins with
  | nil => intro st; rfl
  | cons p rest ih =>
    intro st
    rw [dispatch_cons]
    by_cases h : p.file_url.isSome
    · have hfilter : List.filter (fun q => q.file_url.isSome) (p :: rest) =
          p :: List.filter (fun q => q.file_url.isSome) rest := by
        simp [List.filter_cons, h]
      rw [hfilter, dispatch_cons]
      by_cases hc : limit ≤ st.downloads ∧ limit ≠ 0
      · rw [if_pos hc, if_pos hc, ih]
      · rw [if_neg hc, if_neg hc, ih]
    · have hn : p.file_url = none := Option.not_isSome_iff_eq_none.mp h
      have hfilter : List.filter (fun q => q.file_url.isSome) (p :: rest) =
          List.filter (fun q => q.file_url.isSome) rest := by
        simp [List.filter_cons, h]
      rw [hfilter, download_plugin_no_url net old st p hn, ite_self]
      exact ih st

theorem dpc_nil (limit : Nat) (net : Net) (old : Smap) :
    download_plugins_concurrently limit net [] old = ⟨0, [], [], 0, 0⟩ := rfl

theorem download_plugin_error_fail (net : Net) (old : Smap) (st : DlState)
    (p : Plugin) :
    (download_plugin net old st p).error + st.fail.length =
      (download_plugin net old st p).fail.length + st.error := by
  cases hu : p.file_url with
  | none => simp [download_plugin, hu]; omega
  | some u =>
    simp only [download_plugin, hu]
    split_ifs <;> simp [List.length_append] <;> omega

theorem dispatch_error_fail (limit : Nat) (net : Net) (old : Smap) :
    ∀ (plugins : List Plugin) (st : DlState),
      (dispatch limit net old plugins st).error + st.fail.length =
        (dispatch limit net old plugins st).fail.length + st.error := by
  intro plugins
  induction plugins with
  | nil => intro st; simp [dispatch_nil]; omega
  | cons p rest ih =>
    intro st
    rw [dispatch_cons]
    by_cases hc : limit ≤ st.downloads ∧ limit ≠ 0
    · rw [if_pos hc]; exact ih st
    · rw [if_neg hc]
      have h1 := ih (download_plugin net old st p)
      have h2 := download_plugin_error_fail net old st p
      omega

theorem dpc_error_zero_fail_nil (limit : Nat) (net : Net) (plugins : List Plugin)
    (old : Smap)
    (h : (download_plugins_concurrently limit net plugins old).error = 0) :
    (download_plugins_concurrently limit net plugins old).fail = [] := by
  have hef := dispatch_error_fail limit net old plugins ⟨0, [], [], 0, 0⟩
  rw [download_plugins_concurrently] at h ⊢
  apply List.eq_nil_of_length_eq_zero
  simpa [h] using hef.symm

theorem mem_keys_dinsert {β : Type} (m : List (String × β)) (k0 k : String)
    (v : β) (h : k ∈ m.map Prod.fst ∨ k = k0) :
    k ∈ (dinsert m k0 v).map Prod.fst := by
  rw [dinsert]
  split_ifs with hex
  · have hkeys : (m.map (fun e => if e.1 == k0 then (k0, v) else e)).map Prod.fst
        = m.map Prod.fst := by
      rw [List.map_map]
      apply List.map_congr_left
      intro e _
      by_cases hb : e.1 = k0
      · simp [Function.comp_apply, hb]
      · simp [Function.comp_apply, hb]
    rw [hkeys]
    rcases h with h | h
    · exact h
    · subst h
      obtain ⟨e, he, hb⟩ := List.any_eq_true.mp hex
      exact List.mem_map.mpr ⟨e, he, eq_of_beq hb⟩
  · rw [List.map_append]
    rcases h with h | h
    · exact List.mem_append.mpr (Or.inl h)
    · subst h
      exact List.mem_append.mpr (Or.inr (by simp))

theorem mem_keys_dupdate {β : Type} :
    ∀ (s m : List (String × β)) (k : String),
      (k ∈ m.map Prod.fst ∨ k ∈ s.map Prod.fst) →
      k ∈ (dupdate m s).map Prod.fst := by
  intro s
  induction s with
  | nil =>
    intro m k h
    rcases h with h | h
    · exact h
    · simp at h
  | cons e rest ih =>
    intro m k h
    show k ∈ (dupdate (dinsert m e.1 e.2) rest).map Prod.fst
    apply ih
    rcases h with h | h
    · exact Or.inl (mem_keys_dinsert m e.1 k e.2 (Or.inl h))
    · rw [List.map_cons] at h
      rcases List.mem_cons.mp h with h | h
      · exact Or.inl (mem_keys_dinsert m e.1 k e.2 (Or.inr h))
      · exact Or.inr h

theorem mainLoop_exit (nets : Nat → Net) (old : Smap) (limit fuel i : Nat)
    (plugins : List Plugin) (failures : Nat) (saved : SavedData)
    (writes : List SavedData) (straces : List Smap)
    (h : ¬(plugins ≠ [] ∧ failures < 5)) :
    mainLoop nets old limit (fuel + 1) i plugins failures saved writes straces =
      some ⟨saved, writes, i, decide (failures ≠ 0), straces⟩ := by
  rw [mainLoop, if_neg h]

theorem mainLoop_step (nets : Nat → Net) (old : Smap) (limit fuel i : Nat)
    (plugins : List Plugin) (failures : Nat) (saved : SavedData)
    (writes : List SavedData) (straces : List Smap)
    (hp : plugins ≠ []) (hf : failures < 5) :
    mainLoop nets old limit (fuel + 1) i plugins failures saved writes straces =
      if 0 < (download_plugins_concurrently limit (nets i) plugins old).error then
        mainLoop nets old limit fuel (i + 1)
          (download_plugins_concurrently limit (nets i) plugins old).fail
          (failures + 1)
          { saved with plugins := some (dupdate (saved.plugins.getD [])
              (download_plugins_concurrently limit (nets i) plugins old).succeed) }
          (writes ++ [{ saved with plugins := some (dupdate (saved.plugins.getD [])
              (download_plugins_concurrently limit (nets i) plugins old).succeed) }])
          (straces ++ [(download_plugins_concurrently limit (nets i) plugins old).succeed])
      else
        mainLoop nets old limit fuel (i + 1)
          (download_plugins_concurrently limit (nets i) plugins old).fail 0
          { saved with plugins := some (dupdate (saved.plugins.getD [])
              (download_plugins_concurrently limit (nets i) plugins old).succeed) }
          (writes ++ [{ saved with plugins := some (dupdate (saved.plugins.getD [])
              (download_plugins_concurrently limit (nets i) plugins old).succeed) }])
          (straces ++ [(download_plugins_concurrently limit (nets i) plugins old).succeed]) := by
  rw [mainLoop, if_pos ⟨hp, hf⟩]

theorem mainLoop_total (nets : Nat → Net) (old : Smap) (limit : Nat) :
    ∀ (fuel i : Nat) (plugins : List Plugin) (failures : Nat) (saved : SavedData)
      (writes : List SavedData) (straces : List Smap),
      failures ≤ 5 → 5 - failures + 2 ≤ fuel →
      mainLoop nets old limit fuel i plugins failures saved writes straces ≠ none := by
  intro fuel
  induction fuel with
  | zero => intro i plugins failures saved writes straces _ hfuel; omega
  | succ n ih =>
    intro i plugins failures saved writes straces hf hfuel
    by_cases hc : plugins ≠ [] ∧ failures < 5
    · rw [mainLoop_step nets old limit n i plugins failures saved writes straces hc.1 hc.2]
      by_cases he : 0 < (download_plugins_concurrently limit (nets i) plugins old).error
      · rw [if_pos he]
        exact ih _ _ _ _ _ _ (by omega) (by omega)
      · rw [if_neg he]
        have hfail : (download_plugins_concurrently limit (nets i) plugins old).fail = [] :=
          dpc_error_zero_fail_nil limit (nets i) plugins old (by omega)
        rw [hfail]
        cases n with
        | zero => omega
        | succ m =>
          rw [mainLoop_exit nets old limit m (i + 1) [] 0 _ _ _ (by simp)]
          simp
    · rw [mainLoop_exit nets old limit n i plugins failures saved writes straces hc]
      simp

theorem mainLoop_writes_last (nets : Nat → Net) (old : Smap) (limit : Nat) :
    ∀ (fuel i : Nat) (plugins : List Plugin) (failures : Nat) (saved : SavedData)
      (writes : List SavedData) (straces : List Smap) (out : LoopOut),
      mainLoop nets old limit fuel i plugins failures saved writes straces = some out →
      (writes = [] ∨ writes.getLast? = some saved) →
      (out.writes = [] ∨ out.writes.getLast? = some out.saved) := by
  intro fuel
  induction fuel with
  | zero =>
    intro i plugins failures saved writes straces out h _
    exact absurd h (by rw [mainLoop]; simp)
  | succ n ih =>
    intro i plugins failures saved writes straces out h hinv
    by_cases hc : plugins ≠ [] ∧ failures < 5
    · rw [mainLoop_step nets old limit n i plugins failures saved writes straces hc.1 hc.2] at h
      have hlast : ∀ (w : List SavedData) (s : SavedData),
          (w ++ [s] = ([] : List SavedData)) ∨ (w ++ [s]).getLast? = some s := by
        intro w s
        right
        rw [List.getLast?_concat]
      by_cases he : 0 < (download_plugins_concurrently limit (nets i) plugins old).error
      · rw [if_pos he] at h
        exact ih _ _ _ _ _ _ _ h (hlast _ _)
      · rw [if_neg he] at h
        exact ih _ _ _ _ _ _ _ h (hlast _ _)
    · rw [mainLoop_exit nets old limit n i plugins failures saved writes straces hc] at h
      injection h with h
      rw [← h]
      exact hinv

theorem mainLoop_trace_subset (nets : Nat → Net) (old : Smap) (limit : Nat) :
    ∀ (fuel i : Nat) (plugins : List Plugin) (failures : Nat) (saved : SavedData)
      (writes : List SavedData) (straces : List Smap) (out : LoopOut),
      mainLoop nets old limit fuel i plugins failures saved writes straces = some out →
      (∀ s ∈ straces, ∀ k ∈ s.map Prod.fst, k ∈ (saved.plugins.getD []).map Prod.fst) →
      ∀ s ∈ out.succeed_trace, ∀ k ∈ s.map Prod.fst,
        k ∈ (out.saved.plugins.getD []).map Prod.fst := by
  intro fuel
  induction fuel with
  | zero =>
    intro i plugins failures saved writes straces out h _
    exact absurd h (by rw [mainLoop]; simp)
  | succ n ih =>
    intro i plugins failures saved writes straces out h hinv
    by_cases hc : plugins ≠ [] ∧ failures < 5
    · rw [mainLoop_step nets old limit n i plugins failures saved writes straces hc.1 hc.2] at h
      have hinv1 : ∀ s ∈ straces ++ [(download_plugins_concurrently limit (nets i) plugins old).succeed],
          ∀ k ∈ s.map Prod.fst,
          k ∈ (({ saved with plugins := some (dupdate (saved.plugins.getD [])
              (download_plugins_concurrently limit (nets i) plugins old).succeed) } : SavedData).plugins.getD []).map Prod.fst := by
        intro s hs k hk
        show k ∈ (dupdate (saved.plugins.getD [])
          (download_plugins_concurrently limit (nets i) plugins old).succeed).map Prod.fst
        rcases List.mem_append.mp hs with hs | hs
        · exact mem_keys_dupdate _ _ k (Or.inl (hinv s hs k hk))
        · rcases List.mem_singleton.mp hs with rfl
          exact mem_keys_dupdate _ _ k (Or.inr hk)
      by_cases he : 0 < (download_plugins_concurrently limit (nets i) plugins old).error
      · rw [if_pos he] at h
        exact ih _ _ _ _ _ _ _ h hinv1
      · rw [if_neg he] at h
        exact ih _ _ _ _ _ _ _ h hinv1
    · rw [mainLoop_exit nets old limit n i plugins failures saved writes straces hc] at h
      injection h with h
      rw [← h]
      exact hinv

theorem give_up_aux (nets : Nat → Net) (old : Smap) (limit : Nat)
    (plugins0 : List Plugin)
    (H : ∀ j, j < 5 → 0 < (download_plugins_concurrently limit (nets j)
      (attemptBatch nets old limit plugins0 j) old).error) :
    ∀ (k i : Nat), i + k = 5 →
      ∀ (saved : SavedData) (writes : List SavedData) (straces : List Smap),
      ∃ out, mainLoop nets old limit (k + 2) i
          (attemptBatch nets old limit plugins0 i) i saved writes straces = some out ∧
        out.attempts = 5 ∧ out.gave_up = true ∧
        out.writes.length = writes.length + k ∧
        out.succeed_trace.length = straces.length + k := by
  intro k
  induction k with
  | zero =>
    intro i hik saved writes straces
    have hi : i = 5 := by omega
    subst hi
    refine ⟨⟨saved, writes, 5, decide ((5 : Nat) ≠ 0), straces⟩, ?_, rfl, rfl,
      by simp, by simp⟩
    exact mainLoop_exit nets old limit 1 5 _ 5 saved writes straces
      (fun hcon => absurd hcon.2 (by omega))
  | succ k ih =>
    intro i hik saved writes straces
    have hi5 : i < 5 := by omega
    have hstep := mainLoop_step nets old limit (k + 2) i
      (attemptBatch nets old limit plugins0 i) i saved writes straces
      (by
        intro hnil
        have herr := H i hi5
        rw [hnil, dpc_nil] at herr
        exact absurd herr (by simp)) hi5
    rw [show k + 1 + 2 = k + 2 + 1 from rfl] at hstep
    rw [hstep, if_pos (H i hi5)]
    have hbatch : attemptBatch nets old limit plugins0 (i + 1) =
        (download_plugins_concurrently limit (nets i)
          (attemptBatch nets old limit plugins0 i) old).fail := rfl
    obtain ⟨out, hml, h5, hg, hwl, hsl⟩ := ih (i + 1) (by omega)
      { saved with plugins := some (dupdate (saved.plugins.getD [])
          (download_plugins_concurrently limit (nets i)
            (attemptBatch nets old limit plugins0 i) old).succeed) }
      (writes ++ [{ saved with plugins := some (dupdate (saved.plugins.getD [])
          (download_plugins_concurrently limit (nets i)
            (attemptBatch nets old limit plugins0 i) old).succeed) }])
      (straces ++ [(download_plugins_concurrently limit (nets i)
          (attemptBatch nets old limit plugins0 i) old).succeed])
    rw [hbatch] at hml
    refine ⟨out, hml, h5, hg, ?_, ?_⟩
    · rw [hwl]; simp; omega
    · rw [hsl]; simp; omega

theorem mem_plugins_to_remove (ids : List String) (old : Smap) (k : String) :
    k ∈ plugins_to_remove ids old ↔ k ∈ old.map Prod.fst ∧ k ∉ ids := by
  simp [plugins_to_remove, List.mem_filter]

/-! ## Claim theorems -/

/-- C7: `plugins_to_remove` returns exactly the persisted keys absent from the
current id list (membership characterization), and is empty whenever the
current list covers every persisted key.  Purity (no mutation of either
argument, no I/O) is inherent to the embedding: the source function only
reads its arguments and builds a fresh list. -/
theorem plugins_to_remove_exact (ids : List String) (old : Smap) :
    (∀ k, k ∈ plugins_to_remove ids old ↔ k ∈ old.map Prod.fst ∧ k ∉ ids) ∧
      ((∀ k ∈ old.map Prod.fst, k ∈ ids) → plugins_to_remove ids old = []) := by
  constructor
  · intro k
    simp [plugins_to_remove, List.mem_filter]
  · intro h
    simp only [plugins_to_remove, List.filter_eq_nil_iff]
    intro k hk
    simpa using h k hk

theorem plugins_to_remove_exact_holds :
    "9" ∈ plugins_to_remove ["1"] [("9", ⟨"t", 0⟩)] :=
  ((plugins_to_remove_exact ["1"] [("9", ⟨"t", 0⟩)]).1 "9").mpr (by decide)

/-- C8 (code bug): on a catalog response in which collection `1` lists itself
as its own filetype-2 child, the resolution never terminates: for every fuel
bound the recursion of `get_plugins_id_from_collections_list` exhausts it. -/
theorem cyclic_catalog_diverges (fuel : Nat) :
    get_plugins_id_from_collections_list cyclicCatalog fuel ["1"] = none := by
  induction fuel with
  | zero => rfl
  | succ n ih =>
    simp [get_plugins_id_from_collections_list, cyclicCatalog, processResponse,
      processChildren, ih]

/-- C10 counterexample: the shared `const_data['collection']` template leaks
ids across invocations — after a call for ids `1, 2`, a later call for the
single id `3` sends a payload still carrying `publishedfileids[1] = 2`,
unlike the same call made with a fresh template. -/
theorem const_data_payload_leak :
    (buildRequest "collectioncount"
        (buildRequest "collectioncount" const_data_collection ["1", "2"]).1
        ["3"]).2 ≠
      (buildRequest "collectioncount" const_data_collection ["3"]).2 := by
  decide

/-- C10 amended: the VALUE returned by a collection-details invocation depends
only on the id list and the catalog response — the parse step never reads the
request template — so identical responses give identical results regardless of
earlier invocations; the encoded payload, by contrast, does depend on the
template state (see the counterexample). -/
theorem invoke_value_independent_of_template (t1 t2 : ReqDict)
    (ids : List String) (resp : List CollectionDetail) :
    (invokeCollectionCall t1 ids resp).2.2 =
      (invokeCollectionCall t2 ids resp).2.2 := rfl

/-- C4 counterexample: an artifact record without a `'file_url'` key is NOT
recorded in the returned `succeed` map — the worker body skips it entirely,
so the batch ends with an empty `succeed` map (and indeed no network call and
no failure). -/
theorem urlless_not_recorded_succeeded :
    (download_plugins_concurrently 0 netAll [urllessPlugin] []).succeed = [] ∧
      (download_plugins_concurrently 0 netAll [urllessPlugin] []).calls = 0 ∧
      (download_plugins_concurrently 0 netAll [urllessPlugin] []).error = 0 := by
  decide

/-- C4 amended: artifacts without a download URL are skipped entirely — no
network call, no entry in the `succeed` map, no entry in the failure list:
any batch gives exactly the same result as the batch with the url-less
records dropped, so the run does not fail because of them (but they are not
treated as satisfied either: nothing about them is recorded). -/
theorem urlless_plugins_contribute_nothing (limit : Nat) (net : Net)
    (plugins : List Plugin) (old : Smap) :
    download_plugins_concurrently limit net plugins old =
      download_plugins_concurrently limit net
        (plugins.filter (fun p => p.file_url.isSome)) old :=
  dispatch_filter_url limit net old plugins _

theorem processResponse_valid_mem (resp : List CollectionDetail) (x : String) :
    x ∈ (processResponse resp).2.2 ↔
      ∃ col ∈ resp, col.publishedfileid = x ∧ col.children ≠ none := by
  induction resp with
  | nil => simp [processResponse]
  | cons col rest ih =>
    rcases hpr : processResponse rest with ⟨pl, sub, valid⟩
    rw [hpr] at ih
    cases hch : col.children with
    | none =>
      rw [processResponse, hpr, hch]
      simp only [List.mem_cons]
      rw [ih]
      constructor
      · rintro ⟨c, hc, hx⟩; exact ⟨c, Or.inr hc, hx⟩
      · rintro ⟨c, hc | hc, hx⟩
        · subst hc; exact absurd hch (by simpa using hx.2)
        · exact ⟨c, hc, hx⟩
    | some ch =>
      rw [processResponse, hpr, hch]
      rcases hpc : processChildren ch with ⟨cpl, csub⟩
      simp only [List.mem_cons]
      constructor
      · rintro (hx | hx)
        · exact ⟨col, Or.inl rfl, hx.symm, by simp [hch]⟩
        · obtain ⟨c, hc, h1, h2⟩ := ih.mp hx
          exact ⟨c, Or.inr hc, h1, h2⟩
      · rintro ⟨c, hc | hc, hx⟩
        · subst hc; exact Or.inl hx.1.symm
        · exact Or.inr (ih.mpr ⟨c, hc, hx⟩)

theorem dispatch_at_cap (limit : Nat) (net : Net) (old : Smap) :
    ∀ (plugins : List Plugin) (st : DlState),
      limit ≠ 0 → limit ≤ st.downloads →
      dispatch limit net old plugins st = st := by
  intro plugins
  induction plugins with
  | nil => intro st _ _; rfl
  | cons p rest ih =>
    intro st h0 hle
    rw [dispatch_cons, if_pos ⟨hle, h0⟩]
    exact ih st h0 hle

theorem dispatch_cap_aux (limit : Nat) (net : Net) (old : Smap)
    (hnet : ∀ p, net p = true) :
    ∀ (plugins : List Plugin) (st : DlState),
      (∀ p ∈ plugins, p.file_url ≠ none) →
      (∀ p ∈ plugins, List.lookup p.publishedfileid old = none) →
      limit ≠ 0 → st.downloads < limit →
      limit - st.downloads ≤ plugins.length →
      (dispatch limit net old plugins st).downloads = limit ∧
        (dispatch limit net old plugins st).calls = st.calls + (limit - st.downloads) ∧
        (dispatch limit net old plugins st).error = st.error ∧
        (dispatch limit net old plugins st).fail = st.fail := by
  intro plugins
  induction plugins with
  | nil =>
    intro st _ _ _ hlt hlen
    simp only [List.length_nil, Nat.le_zero] at hlen
    omega
  | cons p rest ih =>
    intro st hurl hold h0 hlt hlen
    rw [dispatch_cons, if_neg (by omega)]
    have hp : p.file_url ≠ none := hurl p (List.mem_cons_self p rest)
    obtain ⟨u, hu⟩ : ∃ u, p.file_url = some u := by
      cases hpu : p.file_url with
      | none => exact absurd hpu hp
      | some u => exact ⟨u, rfl⟩
    have hlk := hold p (List.mem_cons_self p rest)
    have hdp : download_plugin net old st p =
        { st with succeed := dinsert st.succeed p.publishedfileid p.meta,
                  downloads := st.downloads + 1, calls := st.calls + 1 } := by
      simp [download_plugin, hu, hlk, hnet p]
    rw [hdp]
    by_cases hfin : st.downloads + 1 = limit
    · rw [dispatch_at_cap limit net old rest _ h0 (by simp [hfin])]
      refine ⟨by simp [hfin], by simp; omega, rfl, rfl⟩
    · have hlt1 : st.downloads + 1 < limit := by omega
      have hlen1 : limit - (st.downloads + 1) ≤ rest.length := by
        simp only [List.length_cons] at hlen; omega
      obtain ⟨h1, h2, h3, h4⟩ := ih
        { st with succeed := dinsert st.succeed p.publishedfileid p.meta,
                  downloads := st.downloads + 1, calls := st.calls + 1 }
        (fun q hq => hurl q (List.mem_cons_of_mem p hq))
        (fun q hq => hold q (List.mem_cons_of_mem p hq)) h0 hlt1 hlen1
      exact ⟨h1, by rw [h2]; simp; omega, h3, h4⟩

/-- C3 counterexample: batch of 3 downloadable artifacts, limit 2, every
download succeeding — exactly 2 download attempts are made, but the returned
`fail` list (the "remaining" of the spec) is EMPTY: the capped third artifact
is not returned in it, so the next invocation of the orchestrator inside the
same run does not pick it up. -/
theorem capped_plugin_not_in_remaining :
    (download_plugins_concurrently 2 netAll plugins3 []).fail = [] ∧
      (download_plugins_concurrently 2 netAll plugins3 []).calls = 2 := by
  decide

/-- C3 amended: under the modelled sequential schedule, with a non-zero limit
`L`, a batch of more than `L` downloadable artifacts (all carrying a URL,
none previously installed) and every attempted download succeeding (the cap
counts completed downloads), exactly `L` download attempts are dispatched and
the artifacts beyond the cap are left untouched — not dispatched and not
marked failed — but they are NOT returned in the remaining (`fail`) list,
which stays empty; they are only re-attempted on a future program launch,
because they are absent from the persisted state. -/
theorem download_cap_exact (limit : Nat) (net : Net) (plugins : List Plugin)
    (old : Smap) (hl : limit ≠ 0) (hlen : limit < plugins.length)
    (hurl : ∀ p ∈ plugins, p.file_url ≠ none)
    (hold : ∀ p ∈ plugins, List.lookup p.publishedfileid old = none)
    (hnet : ∀ p, net p = true) :
    (download_plugins_concurrently limit net plugins old).calls = limit ∧
      (download_plugins_concurrently limit net plugins old).downloads = limit ∧
      (download_plugins_concurrently limit net plugins old).error = 0 ∧
      (download_plugins_concurrently limit net plugins old).fail = [] := by
  have h0 : (0 : Nat) < limit := Nat.pos_of_ne_zero hl
  obtain ⟨h1, h2, h3, h4⟩ := dispatch_cap_aux limit net old hnet plugins
    ⟨0, [], [], 0, 0⟩ hurl hold hl h0 (by simpa using hlen.le)
  exact ⟨by simpa using h2, h1, h3, h4⟩

theorem download_cap_exact_holds :
    (download_plugins_concurrently 2 netAll plugins3 []).calls = 2 ∧
      (download_plugins_concurrently 2 netAll plugins3 []).downloads = 2 ∧
      (download_plugins_concurrently 2 netAll plugins3 []).error = 0 ∧
      (download_plugins_concurrently 2 netAll plugins3 []).fail = [] :=
  download_cap_exact 2 netAll plugins3 [] (by decide) (by decide) (by decide)
    (by decide) (fun _ => rfl)

/-- C2 counterexample: with collection `10` referencing leaf `1` and
sub-collection `20`, which references the same leaf `1` again (N = 1 distinct
leaf), the resolver returns the sequence `[1, 1]` — the claimed absence of
duplicates fails (deduplication only happens later, in `main`). -/
theorem resolver_returns_duplicates :
    get_plugins_id_from_collections_list catTwoRefs 2 ["10"] =
        some ⟨false, ["1", "1"], ["10"]⟩ ∧
      ¬ (["1", "1"] : List String).Nodup := by
  decide

/-- C6 counterexample: resolving `[10]` against `catTwoRefs` yields
`valid_collections = [10]` even though the catalog's details record for the
nested sub-collection `20` carries a `children` field — the recursive call's
`valid_collections` is discarded at line 155, so `20` is missing. -/
theorem nested_valid_collections_discarded :
    get_plugins_id_from_collections_list catTwoRefs 2 ["10"] =
        some ⟨false, ["1", "1"], ["10"]⟩ ∧
      "20" ∉ (["10"] : List String) ∧
      (⟨"20", some [⟨"1", 0⟩]⟩ : CollectionDetail) ∈ (catTwoRefs ["20"]).getD [] := by
  decide

/-- C2 amended: the sequence returned by a successful resolution covers, as a
set, exactly the distinct leaf artifact ids referenced across all nesting
levels — every referenced leaf appears and nothing else does — but it carries
one entry per reference, so it may contain duplicates (deduplication is left
to the caller, `main`). -/
theorem resolver_plugins_toFinset (cat : Catalog) :
    ∀ (fuel : Nat) (ids : List String) (out : ResolveOut),
      get_plugins_id_from_collections_list cat fuel ids = some out →
      out.error = false →
      out.plugins_id_list.toFinset = specDistinctLeafIds cat fuel ids := by
  intro fuel
  induction fuel with
  | zero =>
    intro ids out h _
    exact absurd h (by simp [get_plugins_id_from_collections_list])
  | succ n ih =>
    intro ids out h herr
    rw [get_plugins_id_from_collections_list] at h
    rw [specDistinctLeafIds]
    cases hc : cat ids with
    | none =>
      rw [hc] at h
      injection h with h
      rw [← h] at herr
      exact absurd herr (by simp)
    | some resp =>
      rw [hc] at h
      dsimp only at h ⊢
      rcases hpr : processResponse resp with ⟨pl, sub, valid⟩
      rw [hpr] at h
      dsimp only at h ⊢
      by_cases hs : sub = []
      · rw [if_pos hs] at h
        injection h with h
        rw [← h]
        rw [if_pos hs]
      · rw [if_neg hs] at h
        rw [if_neg hs]
        cases hr : get_plugins_id_from_collections_list cat n sub with
        | none => rw [hr] at h; exact absurd h (by simp)
        | some subOut =>
          rw [hr] at h
          dsimp only at h
          by_cases he : subOut.error = true
          · rw [if_pos he] at h
            injection h with h
            rw [← h] at herr
            exact absurd herr (by simp)
          · rw [if_neg he] at h
            injection h with h
            rw [← h]
            have hsub := ih sub subOut hr (Bool.not_eq_true subOut.error ▸ he)
            rw [show (ResolveOut.mk false (pl ++ subOut.plugins_id_list) valid).plugins_id_list
                  = pl ++ subOut.plugins_id_list from rfl,
              List.toFinset_append, hsub]

theorem resolver_plugins_toFinset_holds :
    (ResolveOut.mk false ["1", "1"] ["10"]).plugins_id_list.toFinset =
      specDistinctLeafIds catTwoRefs 2 ["10"] :=
  resolver_plugins_toFinset catTwoRefs 2 ["10"] ⟨false, ["1", "1"], ["10"]⟩
    (by decide) rfl

/-- C6 amended: the `valid_collections` list of a resolution call contains
exactly the ids at the CURRENT call's level whose details record carries a
`children` field: collections whose response omits `children` are excluded,
and the valid ids of nested sub-collections (resolved by the recursive call)
are discarded, not included. -/
theorem valid_collections_from_top_response (cat : Catalog) (fuel : Nat)
    (ids : List String) (out : ResolveOut) (resp : List CollectionDetail)
    (h : get_plugins_id_from_collections_list cat fuel ids = some out)
    (hresp : cat ids = some resp) (x : String) :
    x ∈ out.valid_collections ↔
      ∃ col ∈ resp, col.publishedfileid = x ∧ col.children ≠ none := by
  have hv : out.valid_collections = (processResponse resp).2.2 := by
    cases fuel with
    | zero => exact absurd h (by simp [get_plugins_id_from_collections_list])
    | succ n =>
      rw [get_plugins_id_from_collections_list, hresp] at h
      dsimp only at h
      rcases hpr : processResponse resp with ⟨pl, sub, valid⟩
      rw [hpr] at h
      dsimp only at h ⊢
      by_cases hs : sub = []
      · rw [if_pos hs] at h; injection h with h; rw [← h]
      · rw [if_neg hs] at h
        cases hr : get_plugins_id_from_collections_list cat n sub with
        | none => rw [hr] at h; exact absurd h (by simp)
        | some subOut =>
          rw [hr] at h
          dsimp only at h
          by_cases he : subOut.error = true
          · rw [if_pos he] at h; injection h with h; rw [← h]
          · rw [if_neg he] at h; injection h with h; rw [← h]
  rw [hv]
  exact processResponse_valid_mem resp x

/-- C1: whenever a persisted artifact id is absent from the freshly resolved
id list and the catalog fetch of the deprecated ids' details succeeds, the
reconciliation phase removes that id from the persisted plugin map, deletes
its local `<id>.vpk` file, excludes it from the id list handed to the
download phase, and the run then proceeds to the download phase (provided the
final details fetch succeeds).  The pruning itself (`deletePlugins`,
`print_deprecated_info`) is absent from the repository source and is
modelled from the spec (see `deletePlugins`). -/
theorem deprecated_pruned_before_download (fetch : InfoFetch) (nets : Nat → Net)
    (limit : Nat) (ids valids : List String) (saved : SavedData) (old : Smap)
    (k : String) (hp : saved.plugins = some old)
    (hk : k ∈ old.map Prod.fst) (habs : k ∉ ids)
    (hdep : (fetch ((plugins_to_remove ids old).dedup)).isSome = true)
    (hfetch : (fetch ((reconcile fetch ids saved valids).download_ids)).isSome = true) :
    k ∉ (reconcile fetch ids saved valids).old_plugins.map Prod.fst ∧
      (k ++ ".vpk") ∈ (reconcile fetch ids saved valids).deleted_files ∧
      k ∉ (reconcile fetch ids saved valids).download_ids ∧
      (reconcile fetch ids saved valids).saved.plugins = some [] ∧
      (run_main fetch nets limit ids valids saved).reached_download = true := by
  have hkdep : k ∈ (plugins_to_remove ids old).dedup :=
    List.mem_dedup.mpr ((mem_plugins_to_remove ids old k).mpr ⟨hk, habs⟩)
  have hne : (plugins_to_remove ids old).dedup ≠ [] := List.ne_nil_of_mem hkdep
  obtain ⟨info, hinfo⟩ := Option.isSome_iff_exists.mp hdep
  have hold1 : (reconcile fetch ids saved valids).old_plugins =
      old.filter (fun e => !(((plugins_to_remove ids old).dedup).contains e.1)) := by
    simp [reconcile, hp, hinfo, hne, deletePlugins]
  have hdel : (reconcile fetch ids saved valids).deleted_files =
      ((plugins_to_remove ids old).dedup).map (fun i => i ++ ".vpk") := by
    simp [reconcile, hp, hinfo, hne, deletePlugins]
  have hids : (reconcile fetch ids saved valids).download_ids =
      (ids ++ ((reconcile fetch ids saved valids).old_plugins).map Prod.fst).dedup := by
    rw [hold1]
    simp [reconcile, hp, hinfo, hne, deletePlugins]
  have h1 : k ∉ (reconcile fetch ids saved valids).old_plugins.map Prod.fst := by
    rw [hold1]
    intro hmem
    obtain ⟨e, he, hek⟩ := List.mem_map.mp hmem
    obtain ⟨_, hpass⟩ := List.mem_filter.mp he
    rw [hek] at hpass
    simp only [Bool.not_eq_true'] at hpass
    exact absurd hkdep (by simpa using hpass)
  refine ⟨h1, ?_, ?_, ?_, ?_⟩
  · rw [hdel]
    exact List.mem_map.mpr ⟨k, hkdep, rfl⟩
  · rw [hids]
    intro hmem
    rcases List.mem_append.mp (List.mem_dedup.mp hmem) with h | h
    · exact habs h
    · exact h1 h
  · simp [reconcile, hp]
  · rw [run_main]
    obtain ⟨pinfo, hpinfo⟩ := Option.isSome_iff_exists.mp hfetch
    rw [hpinfo]
    dsimp only
    cases mainLoop nets (reconcile fetch ids saved valids).old_plugins limit 7 0
      pinfo 0 (reconcile fetch ids saved valids).saved [] [] <;> rfl

theorem deprecated_pruned_before_download_holds :
    "9" ∉ (reconcile cFetch ["1"] ⟨[], some [("9", ⟨"t", 0⟩)]⟩ []).old_plugins.map Prod.fst ∧
      ("9" ++ ".vpk") ∈ (reconcile cFetch ["1"] ⟨[], some [("9", ⟨"t", 0⟩)]⟩ []).deleted_files ∧
      "9" ∉ (reconcile cFetch ["1"] ⟨[], some [("9", ⟨"t", 0⟩)]⟩ []).download_ids ∧
      (reconcile cFetch ["1"] ⟨[], some [("9", ⟨"t", 0⟩)]⟩ []).saved.plugins = some [] ∧
      (run_main cFetch netsNone 0 ["1"] [] ⟨[], some [("9", ⟨"t", 0⟩)]⟩).reached_download = true :=
  deprecated_pruned_before_download cFetch netsNone 0 ["1"] []
    ⟨[], some [("9", ⟨"t", 0⟩)]⟩ [("9", ⟨"t", 0⟩)] "9" rfl (by decide) (by decide)
    (by decide) (by decide)

/-- C9 counterexample: a run in which the reconciliation prunes a deprecated
plugin (its file is deleted) and merges the valid-collection ids, but the
download phase has zero batches — the run completes normally yet `writes`
is empty: nothing, in particular neither the merged collections nor the
pruning, ever reaches the state file. -/
theorem reconciliation_not_flushed :
    (run_main cFetch netsNone 0 [] ["5"] ⟨[], some [("9", ⟨"t", 0⟩)]⟩).writes = [] ∧
      (run_main cFetch netsNone 0 [] ["5"] ⟨[], some [("9", ⟨"t", 0⟩)]⟩).reached_download = true ∧
      (reconcile cFetch [] ⟨[], some [("9", ⟨"t", 0⟩)]⟩ ["5"]).deleted_files = ["9.vpk"] ∧
      (reconcile cFetch [] ⟨[], some [("9", ⟨"t", 0⟩)]⟩ ["5"]).saved.collections = ["5"] := by
  decide

/-- C9 amended: the persisted state is flushed to the save file only inside
the download loop, once per download batch; it is NOT flushed after the
reconciliation step, so a run whose download phase performs zero batches
(empty fetched batch) completes the download phase without a single write —
the merged valid-collection ids and the pruning never reach the state file
in that run. -/
theorem writes_only_after_batches (fetch : InfoFetch) (nets : Nat → Net)
    (limit : Nat) (ids valids : List String) (saved : SavedData)
    (h : fetch ((reconcile fetch ids saved valids).download_ids) = some []) :
    (run_main fetch nets limit ids valids saved).writes = [] ∧
      (run_main fetch nets limit ids valids saved).reached_download = true := by
  rw [run_main]
  rw [h]
  dsimp only
  rw [mainLoop]
  simp

theorem writes_only_after_batches_holds :
    (run_main cFetch netsNone 0 [] ["5"] ⟨[], some [("9", ⟨"t", 0⟩)]⟩).writes = [] ∧
      (run_main cFetch netsNone 0 [] ["5"] ⟨[], some [("9", ⟨"t", 0⟩)]⟩).reached_download = true :=
  writes_only_after_batches cFetch netsNone 0 [] ["5"] ⟨[], some [("9", ⟨"t", 0⟩)]⟩
    (by decide)

theorem valid_collections_from_top_response_holds :
    "10" ∈ (ResolveOut.mk false ["1", "1"] ["10"]).valid_collections ↔
      ∃ col ∈ [CollectionDetail.mk "10" (some [⟨"1", 0⟩, ⟨"20", 2⟩])],
        col.publishedfileid = "10" ∧ col.children ≠ none :=
  valid_collections_from_top_response catTwoRefs 2 ["10"]
    ⟨false, ["1", "1"], ["10"]⟩ [⟨"10", some [⟨"1", 0⟩, ⟨"20", 2⟩]⟩]
    (by decide) (by decide) "10"

/-- C5: if each of the first 5 download attempts ends with at least one
failure, the run terminates in the given-up state: exactly 5 attempts are
executed (never a 6th), the loop exits printing the give-up warning rather
than crashing, and the state file on disk (the last write, one write having
happened per attempt) is the final state, which contains every artifact that
succeeded in any of the attempts. -/
theorem five_failing_attempts_give_up (nets : Nat → Net) (old : Smap)
    (limit : Nat) (plugins0 : List Plugin) (saved : SavedData)
    (H : ∀ j, j < 5 → 0 < (download_plugins_concurrently limit (nets j)
      (attemptBatch nets old limit plugins0 j) old).error) :
    ∃ out, mainLoop nets old limit 7 0 plugins0 0 saved [] [] = some out ∧
      out.gave_up = true ∧ out.attempts = 5 ∧ out.writes.length = 5 ∧
      out.writes.getLast? = some out.saved ∧
      ∀ s ∈ out.succeed_trace, ∀ k ∈ s.map Prod.fst,
        k ∈ (out.saved.plugins.getD []).map Prod.fst := by
  obtain ⟨out, hml, h5, hg, hwl, hsl⟩ :=
    give_up_aux nets old limit plugins0 H 5 0 rfl saved [] []
  refine ⟨out, hml, hg, h5, by simpa using hwl, ?_, ?_⟩
  · rcases mainLoop_writes_last nets old limit 7 0 plugins0 0 saved [] [] out hml
      (Or.inl rfl) with h | h
    · rw [h] at hwl; simp at hwl
    · exact h
  · exact mainLoop_trace_subset nets old limit 7 0 plugins0 0 saved [] [] out hml
      (by intro s hs; simp at hs)

theorem five_failing_attempts_give_up_holds :
    ∃ out, mainLoop netsNone [] 0 7 0 [mkPlugin 1] 0 ⟨[], some []⟩ [] [] = some out ∧
      out.gave_up = true ∧ out.attempts = 5 ∧ out.writes.length = 5 ∧
      out.writes.getLast? = some out.saved ∧
      ∀ s ∈ out.succeed_trace, ∀ k ∈ s.map Prod.fst,
        k ∈ (out.saved.plugins.getD []).map Prod.fst :=
  five_failing_attempts_give_up netsNone [] 0 [mkPlugin 1] ⟨[], some []⟩ (by decide)

end Workshop
